import Mathlib

/-!
Shallow embedding of the UnrealYAML node wrapper
(src/Source/UnrealYAML/Public/Node.h: FYamlNode and FYamlIterator).

The wrapper delegates almost all behaviour to the bundled yaml-cpp
YAML::Node, whose sources are not present under src/.  Following the
specification, the underlying node engine is modelled here (definitions
in the YAML namespace, each marked "Modelled from the spec"); the
FYamlNode / FYamlIterator definitions mirror the wrapper code itself.

Nodes live in a shared heap (Memory): a handle is an index into the
heap, so several handles may alias the same underlying node, mutation
through one handle being visible through all, exactly as the
reference-counted shared storage of the source behaves.
-/

/-- Shape tag of a node, mirroring EYamlNodeType
(Undefined / Null / Scalar / Sequence / Map). -/
inductive EYamlNodeType
  | undefined
  | null
  | scalar
  | sequence
  | map
deriving DecidableEq, Repr, BEq

/-- Heap record of one underlying node.  Only the fields selected by the
tag are meaningful: scalarVal for Scalar, children for Sequence (ids of
the element nodes), pairs for Map (ids of key and value nodes, in
insertion order).  A freshly constructed node is Null (default state per
the spec). -/
structure NodeData where
  tag : EYamlNodeType := .null
  scalarVal : String := ""
  children : List Nat := []
  pairs : List (Nat × Nat) := []
deriving DecidableEq, Repr

/-- A node handle is an index into the shared heap. -/
abbrev NodeId := Nat

/-- The record an out-of-heap (invalid / zombie) handle denotes. -/
def undefinedData : NodeData := { tag := .undefined }

/-- The shared heap of underlying nodes. -/
structure Memory where
  nodes : List NodeData
deriving DecidableEq, Repr

/-- Read a node record; a dangling id reads as an undefined node. -/
def Memory.get (m : Memory) (i : NodeId) : NodeData :=
  m.nodes.getD i undefinedData

/-- Overwrite a node record in place (all aliasing handles observe it). -/
def Memory.set (m : Memory) (i : NodeId) (d : NodeData) : Memory :=
  ⟨m.nodes.set i d⟩

/-- Allocate a fresh node record, returning the new heap and its id. -/
def Memory.alloc (m : Memory) (d : NodeData) : Memory × NodeId :=
  (⟨m.nodes ++ [d]⟩, m.nodes.length)

/-- Allocate a run of fresh Null nodes, returning their ids in order. -/
def Memory.allocNulls (m : Memory) : Nat → Memory × List NodeId
  | 0 => (m, [])
  | n + 1 =>
    let (m1, id) := m.alloc {}
    let (m2, ids) := m1.allocNulls n
    (m2, id :: ids)

/-- Errors of the underlying engine, mirroring the yaml-cpp exception
kinds the wrapper's catch clauses distinguish: YAML::InvalidNode
(operation through an invalid handle) and the remaining
YAML::Exception conversion failures. -/
inductive YamlErr
  | invalidNode
  | conversionFailure
deriving DecidableEq, Repr

/-- Typed values fed to the conversion engine by the templated wrapper
members.  unencodableVal stands for a typed value the engine cannot
encode (the spec stipulates encoding is fallible; which types fail is
the engine's business). -/
inductive YVal
  | int (n : Int)
  | str (s : String)
  | unencodableVal
deriving DecidableEq, Repr

/-- Keys handed to operator[] / Remove: a string key or a sequence
index. -/
inductive YKey
  | str (s : String)
  | idx (n : Nat)
deriving DecidableEq, Repr

/-- Modelled from the spec: the conversion engine's encoding of a typed
value into a node record (yaml-cpp convert<T>::encode, absent from
src/).  Encoding is fallible; on success the value becomes a Scalar
record. -/
def encode : YVal → Option NodeData
  | .int n => some { tag := .scalar, scalarVal := toString n }
  | .str s => some { tag := .scalar, scalarVal := s }
  | .unencodableVal => none

/-- Decimal digit value of a character, if it is a digit. -/
def digitVal (c : Char) : Option Nat :=
  if 48 ≤ c.toNat ∧ c.toNat ≤ 57 then some (c.toNat - 48) else none

/-- Parse a non-empty all-digit character list as a number. -/
def parseNatCore : List Char → Nat → Option Nat
  | [], acc => some acc
  | c :: rest, acc =>
    match digitVal c with
    | some d => parseNatCore rest (acc * 10 + d)
    | none => none

/-- Parse a decimal integer (optional leading minus sign). -/
def parseInt (s : String) : Option Int :=
  match s.data with
  | [] => none
  | c :: rest =>
    if c = '-' then
      if rest = [] then none
      else (parseNatCore rest 0).map fun n => -(n : Int)
    else (parseNatCore (c :: rest) 0).map fun n => (n : Int)

/-- Modelled from the spec: the engine's typed decode of a node as an
integer (yaml-cpp Node::as<int32>, absent from src/).  none models the
engine raising a YAML::Exception, which every wrapper accessor
catches; decoding fails on any non-Scalar shape and on a scalar whose
text is not numeric. -/
def YAML.decodeInt (m : Memory) (i : NodeId) : Option Int :=
  let d := m.get i
  if d.tag = .scalar then parseInt d.scalarVal else none

/-- Textual form of a key, as the engine encodes it into a key node. -/
def keyStr : YKey → String
  | .str s => s
  | .idx n => toString n

/-- The scalar key node the engine allocates for a key. -/
def keyNode (k : YKey) : NodeData :=
  { tag := .scalar, scalarVal := keyStr k }

/-- Structural match of a stored key node against a lookup key
(the engine's value equality, restricted to the scalar keys this model
creates). -/
def keyMatches (m : Memory) (kid : NodeId) (k : YKey) : Bool :=
  (m.get kid).tag == EYamlNodeType.scalar && (m.get kid).scalarVal == keyStr k

/-- Modelled from the spec: the engine's push_back (yaml-cpp, absent
from src/).  An invalid handle raises InvalidNode (which the wrapper
catches); a Null node auto-vivifies into a Sequence; a Sequence
appends; any other shape is a logged no-op, never a raised fault, per
the spec's shape-mismatch policy.  A value the engine cannot encode is
likewise a logged no-op. -/
def YAML.pushVal (m : Memory) (i : NodeId) (v : YVal) : Except YamlErr Memory :=
  let d := m.get i
  match d.tag with
  | .undefined => .error .invalidNode
  | .null =>
    match encode v with
    | none => .ok m
    | some ed =>
      let (m1, eid) := m.alloc ed
      .ok (m1.set i { d with tag := .sequence, children := [eid] })
  | .sequence =>
    match encode v with
    | none => .ok m
    | some ed =>
      let (m1, eid) := m.alloc ed
      .ok (m1.set i { d with children := d.children ++ [eid] })
  | .scalar => .ok m
  | .map => .ok m

/-- Modelled from the spec: the engine's typed assignment (yaml-cpp
Node::operator= over a typed value, absent from src/).  Assigning
through an invalid handle raises InvalidNode (caught by the wrapper);
a value the engine cannot encode leaves the node unchanged and is
reported only through the diagnostic side-channel; otherwise the
node's record is overwritten with the encoding, in place, so every
aliasing handle observes it. -/
def YAML.assignData (m : Memory) (i : NodeId) (v : YVal) : Except YamlErr Memory :=
  if (m.get i).tag = .undefined then .error .invalidNode
  else
    match encode v with
    | none => .ok m
    | some d => .ok (m.set i d)

/-- Modelled from the spec: the engine's subscript (yaml-cpp
Node::operator[], absent from src/).  Null auto-vivifies into a Map
holding the key with a fresh Null value; a Map returns the value for
the key, creating key and Null value when absent; a Sequence indexed
in range returns the element, and past the end is extended with Null
padding up to and including the index; a Scalar, an invalid handle, or
an index-incompatible key on a Sequence yields a fresh invalid
(undefined) handle, never a fault. -/
def YAML.subscript (m : Memory) (i : NodeId) (k : YKey) : Memory × NodeId :=
  let d := m.get i
  match d.tag with
  | .undefined => m.alloc undefinedData
  | .scalar => m.alloc undefinedData
  | .null =>
    let (m1, kid) := m.alloc (keyNode k)
    let (m2, vid) := m1.alloc {}
    (m2.set i { d with tag := .map, pairs := [(kid, vid)], children := [] }, vid)
  | .map =>
    match d.pairs.find? (fun p => keyMatches m p.1 k) with
    | some p => (m, p.2)
    | none =>
      let (m1, kid) := m.alloc (keyNode k)
      let (m2, vid) := m1.alloc {}
      (m2.set i { d with pairs := d.pairs ++ [(kid, vid)] }, vid)
  | .sequence =>
    match k with
    | .idx n =>
      if n < d.children.length then (m, d.children.getD n 0)
      else
        let (m2, ids) := m.allocNulls (n + 1 - d.children.length)
        let cs := d.children ++ ids
        (m2.set i { d with children := cs }, cs.getD n 0)
    | .str _ => m.alloc undefinedData

/-- Modelled from the spec: the engine's removal (yaml-cpp
Node::remove, absent from src/).  Removes the first Map entry matching
the key, or the Sequence element at an in-range index, returning
whether removal occurred; on a Scalar, Null or invalid node, an absent
key, or an out-of-range / non-index key, returns false with no
structural change and no fault. -/
def YAML.remove (m : Memory) (i : NodeId) (k : YKey) : Memory × Bool :=
  let d := m.get i
  match d.tag with
  | .map =>
    if d.pairs.any (fun p => keyMatches m p.1 k) then
      (m.set i { d with pairs := d.pairs.eraseP (fun p => keyMatches m p.1 k) }, true)
    else (m, false)
  | .sequence =>
    match k with
    | .idx n =>
      if n < d.children.length then
        (m.set i { d with children := d.children.eraseIdx n }, true)
      else (m, false)
    | .str _ => (m, false)
  | _ => (m, false)

/-- One entry yielded by the underlying container iterator (yaml-cpp
iterator_value, absent from src/), modelled from the spec: for a Map
the key/value components (first/second) are defined node handles and
the entry-as-node is unused; for a Sequence first/second are undefined
(none) and elem is the element node the entry itself denotes. -/
structure IterEntry where
  first : Option NodeId := none
  second : Option NodeId := none
  elem : NodeId := 0
deriving DecidableEq, Repr

/-- Modelled from the spec: the snapshot of entries the underlying
iterator walks, in the container's insertion order. -/
def YAML.entriesOf (m : Memory) (i : NodeId) : List IterEntry :=
  match (m.get i).tag with
  | .sequence => (m.get i).children.map (fun c => { elem := c })
  | .map => (m.get i).pairs.map (fun p => { first := some p.1, second := some p.2 })
  | _ => []

/-- FYamlIterator: the underlying cursor (position in the entry
snapshot) plus the positional counter field Index the wrapper adds
(int32 in the source; the counts involved are far below overflow). -/
structure FYamlIterator where
  entries : List IterEntry
  cursor : Nat
  index : Nat
deriving DecidableEq, Repr

/-- The entry the underlying cursor currently designates. -/
def FYamlIterator.current (it : FYamlIterator) : IterEntry :=
  it.entries.getD it.cursor {}

/-- Result of FYamlIterator::Key: either the Map entry's key node, or
the synthesized scalar node FYamlNode(Index) holding the positional
counter. -/
inductive KeyView
  | node (id : NodeId)
  | indexScalar (n : Nat)
deriving DecidableEq, Repr

/-- FYamlIterator::Key from the source: the pair's first component when
it is defined, else a node synthesized from Index. -/
def FYamlIterator.Key (it : FYamlIterator) : KeyView :=
  match it.current.first with
  | some k => .node k
  | none => .indexScalar it.index

/-- FYamlIterator::operator* from the source: the pair's second
component when defined, else the entry dereferenced as a node. -/
def FYamlIterator.deref (it : FYamlIterator) : NodeId :=
  match it.current.second with
  | some v => v
  | none => it.current.elem

/-- FYamlIterator::Value from the source: the pair's second component
when defined, else the result of dereferencing the iterator. -/
def FYamlIterator.Value (it : FYamlIterator) : NodeId :=
  match it.current.second with
  | some v => v
  | none => it.deref

/-- FYamlIterator::operator++ (pre-increment) from the source: advances
the underlying cursor and increments Index. -/
def FYamlIterator.preInc (it : FYamlIterator) : FYamlIterator :=
  { it with cursor := it.cursor + 1, index := it.index + 1 }

/-- FYamlIterator::operator++(int) (post-increment) from the source:
copies Pre from the iterator, applies pre-increment (which already
advances Index), then increments Index once more, and returns Pre.
First component: the iterator's state afterwards; second: the returned
copy. -/
def FYamlIterator.postInc (it : FYamlIterator) : FYamlIterator × FYamlIterator :=
  ({ it.preInc with index := it.preInc.index + 1 }, it)

/-- Apply pre-increment k times. -/
def advanceK : Nat → FYamlIterator → FYamlIterator
  | 0, it => it
  | k + 1, it => advanceK k it.preInc

/-- FYamlNode::Type from the source. -/
def FYamlNode.Type (m : Memory) (i : NodeId) : EYamlNodeType :=
  (m.get i).tag

/-- FYamlNode::IsDefined from the source. -/
def FYamlNode.IsDefined (m : Memory) (i : NodeId) : Bool :=
  FYamlNode.Type m i != .undefined

/-- FYamlNode::IsNull from the source. -/
def FYamlNode.IsNull (m : Memory) (i : NodeId) : Bool :=
  FYamlNode.Type m i == .null

/-- FYamlNode::IsScalar from the source. -/
def FYamlNode.IsScalar (m : Memory) (i : NodeId) : Bool :=
  FYamlNode.Type m i == .scalar

/-- FYamlNode::IsSequence from the source. -/
def FYamlNode.IsSequence (m : Memory) (i : NodeId) : Bool :=
  FYamlNode.Type m i == .sequence

/-- FYamlNode::IsMap from the source. -/
def FYamlNode.IsMap (m : Memory) (i : NodeId) : Bool :=
  FYamlNode.Type m i == .map

/-- FYamlNode::Scalar from the source: raw scalar text, empty when the
node is not a Scalar. -/
def FYamlNode.Scalar (m : Memory) (i : NodeId) : String :=
  if (m.get i).tag = .scalar then (m.get i).scalarVal else ""

/-- FYamlNode::Size from the source: element count for a Sequence or
Map, 0 for every other shape (int32 in the source; counts stay far
below overflow). -/
def FYamlNode.Size (m : Memory) (i : NodeId) : Nat :=
  match (m.get i).tag with
  | .sequence => (m.get i).children.length
  | .map => (m.get i).pairs.length
  | _ => 0

/-- FYamlNode::As over int32 from the source: the engine decode inside
try, every engine exception caught and mapped to the caller-supplied
default. -/
def FYamlNode.As (m : Memory) (i : NodeId) (defaultValue : Int) : Int :=
  (YAML.decodeInt m i).getD defaultValue

/-- FYamlNode::AsOptional over int32 from the source: the engine decode
inside try, every engine exception caught and mapped to the empty
optional. -/
def FYamlNode.AsOptional (m : Memory) (i : NodeId) : Option Int :=
  YAML.decodeInt m i

/-- FYamlNode::CanConvertTo over int32 from the source. -/
def FYamlNode.CanConvertTo (m : Memory) (i : NodeId) : Bool :=
  (YAML.decodeInt m i).isSome

/-- FYamlNode::Push from the source: delegates to the engine push_back
inside try, catching exactly YAML::InvalidNode (logged no-op); any
other engine exception would escape to the caller, hence the Except
result. -/
def FYamlNode.Push (m : Memory) (i : NodeId) (v : YVal) : Except YamlErr Memory :=
  match YAML.pushVal m i v with
  | .ok m2 => .ok m2
  | .error .invalidNode => .ok m
  | .error e => .error e

/-- FYamlNode::operator= over a typed value from the source: delegates
to the engine assignment inside try, catching exactly
YAML::InvalidNode (logged, no assignment); any other engine exception
would escape, hence the Except result. -/
def FYamlNode.assign (m : Memory) (i : NodeId) (v : YVal) : Except YamlErr Memory :=
  match YAML.assignData m i v with
  | .ok m2 => .ok m2
  | .error .invalidNode => .ok m
  | .error e => .error e

/-- FYamlNode::operator=(const FYamlNode&) from the source: the target
handle is re-pointed at the source handle's underlying storage
(aliasing, not a deep copy); the handle the target previously held is
discarded. -/
def FYamlNode.assignNode (_target : NodeId) (source : NodeId) : NodeId :=
  source

/-- FYamlNode::operator[] from the source: delegates to the engine
subscript (no try/catch in the wrapper; the modelled engine never
raises here, per the spec's invalid-handle policy). -/
def FYamlNode.subscript (m : Memory) (i : NodeId) (k : YKey) : Memory × NodeId :=
  YAML.subscript m i k

/-- FYamlNode::Remove from the source: delegates to the engine
removal. -/
def FYamlNode.Remove (m : Memory) (i : NodeId) (k : YKey) : Memory × Bool :=
  YAML.remove m i k

/-- FYamlNode::begin from the source, with the spec's documented quirk:
called on a Null node it first auto-converts the node to an empty
Sequence, then yields an iterator over the (possibly empty) entry
snapshot at cursor 0 with Index 0. -/
def FYamlNode.begin (m : Memory) (i : NodeId) : Memory × FYamlIterator :=
  let d := m.get i
  if d.tag = .null then
    (m.set i { d with tag := .sequence, children := [] },
     { entries := [], cursor := 0, index := 0 })
  else
    (m, { entries := YAML.entriesOf m i, cursor := 0, index := 0 })

deriving instance DecidableEq for Except

/-- Heap for the C3 scenario: node 0 is an empty Sequence. -/
def c3m0 : Memory := ⟨[{ tag := .sequence }]⟩

/-- Indexing the empty Sequence at 3 (the write handle of n[3]). -/
def c3s : Memory × NodeId := FYamlNode.subscript c3m0 0 (YKey.idx 3)

/-- Heap after n[3] = "x". -/
def c3m2 : Memory :=
  match FYamlNode.assign c3s.1 c3s.2 (YVal.str "x") with
  | .ok m => m
  | .error _ => c3s.1

/-- Heap for the C4 scenario: node 0 is a fresh Null node. -/
def c4m0 : Memory := ⟨[{}]⟩

/-- First subscript of the C4 scenario: n["a"]. -/
def c4s1 : Memory × NodeId := FYamlNode.subscript c4m0 0 (YKey.str "a")

/-- Second subscript of the C4 scenario: n["a"]["b"]. -/
def c4s2 : Memory × NodeId := FYamlNode.subscript c4s1.1 c4s1.2 (YKey.str "b")

/-- Heap after n["a"]["b"] = 5. -/
def c4m3 : Memory :=
  match FYamlNode.assign c4s2.1 c4s2.2 (YVal.int 5) with
  | .ok m => m
  | .error _ => c4s2.1

/-- Read of n["a"] after the C4 assignment. -/
def c4ra : Memory × NodeId := FYamlNode.subscript c4m3 0 (YKey.str "a")

/-- Read of n["a"]["b"] after the C4 assignment. -/
def c4rb : Memory × NodeId := FYamlNode.subscript c4ra.1 c4ra.2 (YKey.str "b")

/-- Heap with a single empty Map node, for the C1 witness. -/
def c1mW : Memory := ⟨[{ tag := .map }]⟩

/-- Heap with a single Scalar node, for the C2 witness. -/
def c2mW : Memory := ⟨[{ tag := .scalar, scalarVal := "s" }]⟩

/-- Heap with a Scalar node holding "hello", for the C5 witness. -/
def c5mW : Memory := ⟨[{ tag := .scalar, scalarVal := "hello" }]⟩

/-- Heap with a Scalar node holding "keep", for the C6 witness. -/
def c6mW : Memory := ⟨[{ tag := .scalar, scalarVal := "keep" }]⟩

/-- Heap for the C7 witness: node 0 an empty Sequence, node 1 a Null
node the handle b pointed at before b = a. -/
def c7mW : Memory := ⟨[{ tag := .sequence }, {}]⟩

/-- Heap for the C8 failing input: node 0 a Sequence of three Null
elements. -/
def c8m : Memory := ⟨[{ tag := .sequence, children := [1, 2, 3] }, {}, {}, {}]⟩

/-- Heap with a single Scalar node, for the C9 witness. -/
def c9mW : Memory := ⟨[{ tag := .scalar, scalarVal := "s" }]⟩

/-- Heap for the C10 witness: node 0 a Sequence of one Null element. -/
def c10mW : Memory := ⟨[{ tag := .sequence, children := [1] }, {}]⟩

/-- Reading any list position at or past the length yields the default. -/
theorem listGetD_out {α : Type} (l : List α) (n : Nat) (dflt : α)
    (h : l.length ≤ n) : l.getD n dflt = dflt := by
  induction l generalizing n with
  | nil => simp [List.getD]
  | cons x xs ih =>
    cases n with
    | zero => simp at h
    | succ j =>
      rw [List.getD_cons_succ]
      exact ih j (Nat.le_of_succ_le_succ h)

/-- Appending on the right does not disturb in-range reads. -/
theorem listGetD_append_lt {α : Type} (l l2 : List α) (n : Nat) (dflt : α)
    (h : n < l.length) : (l ++ l2).getD n dflt = l.getD n dflt := by
  induction l generalizing n with
  | nil => simp at h
  | cons x xs ih =>
    cases n with
    | zero => simp
    | succ j =>
      rw [List.cons_append, List.getD_cons_succ, List.getD_cons_succ]
      exact ih j (Nat.lt_of_succ_lt_succ h)

/-- Reading the freshly appended cell. -/
theorem listGetD_concat_len {α : Type} (l : List α) (x dflt : α) :
    (l ++ [x]).getD l.length dflt = x := by
  induction l with
  | nil => simp
  | cons y ys ih =>
    rw [List.cons_append, List.length_cons, List.getD_cons_succ]
    exact ih

/-- Reading back an in-range write. -/
theorem listGetD_set_self {α : Type} (l : List α) (n : Nat) (x dflt : α)
    (h : n < l.length) : (l.set n x).getD n dflt = x := by
  induction l generalizing n with
  | nil => simp at h
  | cons y ys ih =>
    cases n with
    | zero => simp
    | succ j => simpa using ih j (Nat.lt_of_succ_lt_succ h)

/-- Erasing an in-range index shortens the list by exactly one. -/
theorem listLen_eraseIdx {α : Type} (l : List α) (n : Nat)
    (h : n < l.length) : (l.eraseIdx n).length + 1 = l.length := by
  induction l generalizing n with
  | nil => simp at h
  | cons y ys ih =>
    cases n with
    | zero => simp [List.eraseIdx]
    | succ j =>
      have := ih j (Nat.lt_of_succ_lt_succ h)
      simp [List.eraseIdx]
      omega

/-- Erasing the first match shortens the list by exactly one when a
match exists. -/
theorem listLen_eraseP {α : Type} (p : α → Bool) (l : List α)
    (h : l.any p = true) : (l.eraseP p).length + 1 = l.length := by
  induction l with
  | nil => simp at h
  | cons y ys ih =>
    by_cases hp : p y
    · simp [List.eraseP_cons, hp]
    · have hy : ys.any p = true := by
        simp only [List.any_cons] at h
        rcases Bool.or_eq_true_iff.mp h with h1 | h1
        · exact absurd h1 hp
        · exact h1
      have := ih hy
      simp [List.eraseP_cons, hp]
      omega

/-- A dangling handle reads as the undefined record. -/
theorem Memory.get_out (m : Memory) (i : NodeId)
    (h : m.nodes.length ≤ i) : m.get i = undefinedData :=
  listGetD_out m.nodes i undefinedData h

/-- A handle whose record has a tag other than Undefined is in range. -/
theorem Memory.lt_of_tag_ne (m : Memory) (i : NodeId)
    (h : (m.get i).tag ≠ EYamlNodeType.undefined) : i < m.nodes.length := by
  by_contra hn
  rw [Memory.get_out m i (Nat.le_of_not_lt hn)] at h
  exact h rfl

/-- Reading back an in-range heap write. -/
theorem Memory.get_set_self (m : Memory) (i : NodeId) (d : NodeData)
    (h : i < m.nodes.length) : (m.set i d).get i = d :=
  listGetD_set_self m.nodes i d undefinedData h

/-- Reading the freshly allocated node. -/
theorem Memory.get_alloc_self (m : Memory) (d : NodeData) :
    ((m.alloc d).1).get (m.alloc d).2 = d :=
  listGetD_concat_len m.nodes d undefinedData

/-- Allocation does not disturb existing in-range nodes. -/
theorem Memory.get_alloc_lt (m : Memory) (d : NodeData) (i : NodeId)
    (h : i < m.nodes.length) : ((m.alloc d).1).get i = m.get i :=
  listGetD_append_lt m.nodes [d] i undefinedData h

/-- Claim C1: for every node whose shape is neither Null nor Sequence,
Push leaves the heap (hence the node's contents) unchanged and returns
normally — a no-op with a diagnostic, never a crash or an escaping
exception. -/
theorem push_shape_mismatch_noop (m : Memory) (i : NodeId) (v : YVal)
    (h1 : (m.get i).tag ≠ EYamlNodeType.null)
    (h2 : (m.get i).tag ≠ EYamlNodeType.sequence) :
    FYamlNode.Push m i v = Except.ok m := by
  cases htag : (m.get i).tag
  · simp [FYamlNode.Push, YAML.pushVal, htag]
  · exact absurd htag h1
  · simp [FYamlNode.Push, YAML.pushVal, htag]
  · exact absurd htag h2
  · simp [FYamlNode.Push, YAML.pushVal, htag]

/-- Witness for C1: pushing onto an empty Map is a faultless no-op. -/
theorem push_shape_mismatch_noop_witness :
    FYamlNode.Push c1mW 0 (YVal.int 1) = Except.ok c1mW :=
  push_shape_mismatch_noop c1mW 0 (YVal.int 1) (by decide) (by decide)

/-- Claim C2: indexing a Scalar (or an invalid node, or a Sequence with
an index-incompatible key) yields an invalid (undefined) node handle
and no fault reaches the caller. -/
theorem subscript_incompatible_invalid (m : Memory) (i : NodeId) (k : YKey)
    (h : (m.get i).tag = EYamlNodeType.scalar ∨
         (m.get i).tag = EYamlNodeType.undefined ∨
         ((m.get i).tag = EYamlNodeType.sequence ∧ ∀ n, k ≠ YKey.idx n)) :
    ((FYamlNode.subscript m i k).1.get (FYamlNode.subscript m i k).2).tag
      = EYamlNodeType.undefined := by
  have halloc :
      ∀ mm : Memory,
        ((mm.alloc undefinedData).1.get (mm.alloc undefinedData).2).tag
          = EYamlNodeType.undefined := by
    intro mm
    rw [Memory.get_alloc_self]
    exact rfl
  rcases h with h | h | ⟨h, hk⟩
  · simp [FYamlNode.subscript, YAML.subscript, h, halloc m]
  · simp [FYamlNode.subscript, YAML.subscript, h, halloc m]
  · cases k with
    | idx n => exact absurd rfl (hk n)
    | str s => simp [FYamlNode.subscript, YAML.subscript, h, halloc m]

/-- Witness for C2: indexing a Scalar node returns an undefined
handle. -/
theorem subscript_incompatible_invalid_witness :
    ((FYamlNode.subscript c2mW 0 (YKey.str "k")).1.get
        (FYamlNode.subscript c2mW 0 (YKey.str "k")).2).tag
      = EYamlNodeType.undefined :=
  subscript_incompatible_invalid c2mW 0 (YKey.str "k") (Or.inl (by decide))

/-- Claim C5: whenever the engine decode fails, As returns the
caller-supplied default and AsOptional returns no value; neither
faults. -/
theorem as_decode_failure_default (m : Memory) (i : NodeId) (dv : Int)
    (h : YAML.decodeInt m i = none) :
    FYamlNode.As m i dv = dv ∧ FYamlNode.AsOptional m i = none := by
  simp [FYamlNode.As, FYamlNode.AsOptional, h]

/-- Witness for C5: As with default 42 on a Scalar holding "hello"
returns 42, and AsOptional returns no value. -/
theorem as_decode_failure_default_witness :
    FYamlNode.As c5mW 0 42 = 42 ∧ FYamlNode.AsOptional c5mW 0 = none :=
  as_decode_failure_default c5mW 0 42 (by decide)

/-- Claim C6: assigning a typed value whose encoding fails leaves the
heap (hence the node's prior value) unchanged and returns normally —
the failure is only reported through the diagnostic side-channel. -/
theorem assign_encode_failure_noop (m : Memory) (i : NodeId) (v : YVal)
    (h : encode v = none) :
    FYamlNode.assign m i v = Except.ok m := by
  unfold FYamlNode.assign YAML.assignData
  by_cases ht : (m.get i).tag = EYamlNodeType.undefined
  · simp [ht]
  · simp [ht, h]

/-- Witness for C6: assigning the unencodable value to a Scalar node
leaves it untouched and does not throw. -/
theorem assign_encode_failure_noop_witness :
    FYamlNode.assign c6mW 0 YVal.unencodableVal = Except.ok c6mW :=
  assign_encode_failure_noop c6mW 0 YVal.unencodableVal (by decide)

/-- Claim C3: starting from an empty Sequence n, the write n[3] = "x"
succeeds without fault, after which n.Size() = 4, the elements at
indices 0, 1 and 2 are Null, and the element at index 3 is the Scalar
"x"; in-range reads do not mutate the heap. -/
theorem sequence_padding_on_index_write :
    FYamlNode.assign c3s.1 c3s.2 (YVal.str "x") = Except.ok c3m2 ∧
    FYamlNode.Size c3m2 0 = 4 ∧
    FYamlNode.IsNull c3m2 (FYamlNode.subscript c3m2 0 (YKey.idx 0)).2 = true ∧
    FYamlNode.IsNull c3m2 (FYamlNode.subscript c3m2 0 (YKey.idx 1)).2 = true ∧
    FYamlNode.IsNull c3m2 (FYamlNode.subscript c3m2 0 (YKey.idx 2)).2 = true ∧
    FYamlNode.IsScalar c3m2 (FYamlNode.subscript c3m2 0 (YKey.idx 3)).2 = true ∧
    FYamlNode.Scalar c3m2 (FYamlNode.subscript c3m2 0 (YKey.idx 3)).2 = "x" ∧
    (FYamlNode.subscript c3m2 0 (YKey.idx 3)).1 = c3m2 := by
  decide

/-- Claim C4: starting from a Null node n, evaluating n["a"]["b"] = 5
auto-vivifies the intermediate structure: afterwards n is a Map,
n["a"] is a Map, and n["a"]["b"] decodes as the integer 5; the reads
performed afterwards do not mutate the heap. -/
theorem auto_vivification_nested_assign :
    FYamlNode.assign c4s2.1 c4s2.2 (YVal.int 5) = Except.ok c4m3 ∧
    FYamlNode.IsMap c4m3 0 = true ∧
    FYamlNode.IsMap c4ra.1 c4ra.2 = true ∧
    FYamlNode.As c4rb.1 c4rb.2 0 = 5 ∧
    c4ra.1 = c4m3 ∧
    c4rb.1 = c4m3 := by
  decide

/-- Claim C8 (code bug, evaluated at the failing input): on a
Sequence-sourced iterator, one application of post-increment advances
the underlying cursor by one but the positional counter by two — the
source's operator++(int) calls ++(*this), which already increments
Index, and then increments Index again — so Key() afterwards holds 2
where the claim requires 1; pre-increment, by contrast, is in
lockstep. -/
theorem postinc_counter_runs_ahead :
    (FYamlNode.begin c8m 0).2.postInc.1.cursor = 1 ∧
    (FYamlNode.begin c8m 0).2.postInc.1.index = 2 ∧
    (FYamlNode.begin c8m 0).2.postInc.1.Key = KeyView.indexScalar 2 ∧
    (FYamlNode.begin c8m 0).2.preInc.cursor = 1 ∧
    (FYamlNode.begin c8m 0).2.preInc.index = 1 ∧
    (FYamlNode.begin c8m 0).2.preInc.Key = KeyView.indexScalar 1 := by
  decide

/-- Claim C10: the iterator discriminates Map-style from Sequence-style
entries by the defined-ness of the current entry's components, not by
the source container's declared shape: an undefined key component
makes Key() return the synthesized positional-counter node, an
undefined value component makes Value() return the dereferenced
element itself, and on a Sequence-sourced iterator Value() and
operator* denote the same element at every position. -/
theorem iter_component_discrimination (it : FYamlIterator) (m : Memory)
    (i : NodeId) (k : Nat)
    (_hseq : (m.get i).tag = EYamlNodeType.sequence) :
    (it.current.first = none → it.Key = KeyView.indexScalar it.index) ∧
    (it.current.second = none → it.Value = it.deref) ∧
    ((advanceK k (FYamlNode.begin m i).2).Value
      = (advanceK k (FYamlNode.begin m i).2).deref) := by
  refine ⟨?_, ?_, ?_⟩
  · intro h
    simp [FYamlIterator.Key, h]
  · intro h
    simp [FYamlIterator.Value, h]
  · cases hs : (advanceK k (FYamlNode.begin m i).2).current.second <;>
      simp [FYamlIterator.Value, FYamlIterator.deref, hs]

/-- Witness for C10: on a one-element Sequence iterator, Value and
dereference agree at the initial position. -/
theorem iter_component_discrimination_witness :
    (advanceK 0 (FYamlNode.begin c10mW 0).2).Value
      = (advanceK 0 (FYamlNode.begin c10mW 0).2).deref :=
  (iter_component_discrimination ⟨[], 0, 0⟩ c10mW 0 0 (by decide)).2.2

/-- Claim C7: copy-assigning one handle to another aliases the source's
storage (assignNode yields the same underlying node), so a push
through the source handle is observed through the copied handle: its
Size increases by exactly one. -/
theorem copy_assign_alias_push_observed (m : Memory) (a bOld : NodeId) (v : YVal)
    (hshape : (m.get a).tag = EYamlNodeType.null ∨
              (m.get a).tag = EYamlNodeType.sequence)
    (henc : (encode v).isSome = true) :
    ∃ m2, FYamlNode.Push m a v = Except.ok m2 ∧
      FYamlNode.Size m2 (FYamlNode.assignNode bOld a)
        = FYamlNode.Size m (FYamlNode.assignNode bOld a) + 1 := by
  obtain ⟨ed, hed⟩ := Option.isSome_iff_exists.mp henc
  have ha : a < m.nodes.length := by
    apply Memory.lt_of_tag_ne
    rcases hshape with h | h <;> rw [h] <;> decide
  have ha2 : a < ((m.alloc ed).1).nodes.length := by
    show a < (m.nodes ++ [ed]).length
    rw [List.length_append]
    exact Nat.lt_succ_of_lt ha
  rcases hshape with h | h
  · refine ⟨(m.alloc ed).1.set a
      { m.get a with tag := .sequence, children := [(m.alloc ed).2] }, ?_, ?_⟩
    · simp [FYamlNode.Push, YAML.pushVal, h, hed, Memory.alloc]
    · simp [FYamlNode.assignNode, FYamlNode.Size,
        Memory.get_set_self _ _ _ ha2, h]
  · refine ⟨(m.alloc ed).1.set a
      { m.get a with children := (m.get a).children ++ [(m.alloc ed).2] }, ?_, ?_⟩
    · simp [FYamlNode.Push, YAML.pushVal, h, hed, Memory.alloc]
    · simp [FYamlNode.assignNode, FYamlNode.Size,
        Memory.get_set_self _ _ _ ha2, h]

/-- Witness for C7: with b = a aliasing an empty Sequence, a.Push(1)
raises b's Size from 0 to 1. -/
theorem copy_assign_alias_push_observed_witness :
    ∃ m2, FYamlNode.Push c7mW 0 (YVal.int 1) = Except.ok m2 ∧
      FYamlNode.Size m2 (FYamlNode.assignNode 1 0)
        = FYamlNode.Size c7mW (FYamlNode.assignNode 1 0) + 1 :=
  copy_assign_alias_push_observed c7mW 0 1 (YVal.int 1)
    (Or.inr (by decide)) (by decide)

/-- Claim C9: Remove on a Scalar or Null node returns false with no
change; whenever Remove reports false the heap is fully unchanged (so
Size is unchanged); whenever it reports true exactly one entry or
element was removed (Size drops by one); on a Map it reports true
exactly when the key is present, and on a Sequence exactly when the
key is an in-range index. -/
theorem remove_contract (m : Memory) (i : NodeId) (k : YKey) :
    ((m.get i).tag = EYamlNodeType.scalar ∨ (m.get i).tag = EYamlNodeType.null →
      FYamlNode.Remove m i k = (m, false)) ∧
    ((FYamlNode.Remove m i k).2 = false → FYamlNode.Remove m i k = (m, false)) ∧
    ((FYamlNode.Remove m i k).2 = true →
      FYamlNode.Size (FYamlNode.Remove m i k).1 i + 1 = FYamlNode.Size m i) ∧
    ((m.get i).tag = EYamlNodeType.map →
      ((FYamlNode.Remove m i k).2 = true ↔
        (m.get i).pairs.any (fun p => keyMatches m p.1 k) = true)) ∧
    ((m.get i).tag = EYamlNodeType.sequence →
      ((FYamlNode.Remove m i k).2 = true ↔
        ∃ n, k = YKey.idx n ∧ n < (m.get i).children.length)) := by
  refine ⟨?_, ?_, ?_, ?_, ?_⟩
  · intro h
    rcases h with h | h <;> simp [FYamlNode.Remove, YAML.remove, h]
  · intro h
    cases htag : (m.get i).tag <;>
      simp only [FYamlNode.Remove, YAML.remove, htag] at h ⊢
    case map =>
      by_cases hany : (m.get i).pairs.any (fun p => keyMatches m p.1 k) = true
      · simp [hany] at h
      · simp [hany]
    case sequence =>
      cases k with
      | str s => rfl
      | idx n =>
        by_cases hr : n < (m.get i).children.length
        · simp [hr] at h
        · simp [hr]
  · intro h
    cases htag : (m.get i).tag <;>
      simp only [FYamlNode.Remove, YAML.remove, htag] at h ⊢
    case undefined => cases h
    case null => cases h
    case scalar => cases h
    case map =>
      have hlt : i < m.nodes.length := by
        apply Memory.lt_of_tag_ne
        rw [htag]
        decide
      by_cases hany : (m.get i).pairs.any (fun p => keyMatches m p.1 k) = true
      · simp only [hany, if_true]
        simp [FYamlNode.Size, Memory.get_set_self _ _ _ hlt, htag,
          listLen_eraseP _ _ hany]
      · simp [hany] at h
    case sequence =>
      have hlt : i < m.nodes.length := by
        apply Memory.lt_of_tag_ne
        rw [htag]
        decide
      cases k with
      | str s => cases h
      | idx n =>
        by_cases hr : n < (m.get i).children.length
        · simp only [hr, if_true]
          simp [FYamlNode.Size, Memory.get_set_self _ _ _ hlt, htag,
            listLen_eraseIdx _ _ hr]
        · simp [hr] at h
  · intro htag
    by_cases hany : (m.get i).pairs.any (fun p => keyMatches m p.1 k) = true
    · simp [FYamlNode.Remove, YAML.remove, htag, hany]
    · simp [FYamlNode.Remove, YAML.remove, htag, hany]
  · intro htag
    cases k with
    | str s => simp [FYamlNode.Remove, YAML.remove, htag]
    | idx n =>
      by_cases hr : n < (m.get i).children.length
      · simp [FYamlNode.Remove, YAML.remove, htag, hr]
      · simp [FYamlNode.Remove, YAML.remove, htag, hr]

/-- Witness for C9: removing a key from a Scalar node returns false and
leaves the heap unchanged. -/
theorem remove_contract_witness :
    FYamlNode.Remove c9mW 0 (YKey.str "a") = (c9mW, false) :=
  (remove_contract c9mW 0 (YKey.str "a")).1 (Or.inl (by decide))
